import Mathlib

/-!
Shallow embedding of `lint-consul-retry.go` (hashicorp/lint-consul-retry).

The Go program walks the syntax trees of Go files that import both the
retry harness and `testing`, tracking a per-visitor scope state
(`depth`, `currentTest`, `path`, `retryDepth`), and records violations
(`rememberTest`) for call expressions inside a retry scope that use a
`*testing.T` value.  Every definition below mirrors the corresponding
Go function; Go runtime panics (out-of-range slice indexing) are
modelled with `Option`, `none` meaning the program aborts.
-/

namespace LintConsulRetry

/-- Source position, `token.Pos` in Go. -/
abbrev Pos := Nat

/-- The `ast.ObjKind` of `go/ast`. -/
inductive ObjKind where
  | bad | pkg | con | typ | var | func | lbl
  deriving DecidableEq, Repr

/-- The shape of a type expression, as far as `objectIsTestingT` inspects it:
`star` is `*ast.StarExpr`, `sel` is `*ast.SelectorExpr` (`X.Sel`),
`tyIdent` is `*ast.Ident`, `otherType` any other type expression. -/
inductive TypeExpr where
  | star (x : TypeExpr)
  | sel (x : TypeExpr) (selName : String)
  | tyIdent (name : String)
  | otherType
  deriving DecidableEq, Repr

/-- The declaration attached to an `ast.Object`: `objectIsTestingT` only
distinguishes `*ast.Field` (carrying its `Type`) from everything else. -/
inductive ObjDecl where
  | field (ty : TypeExpr)
  | otherDecl
  deriving DecidableEq, Repr

/-- An `ast.Object`: the resolved declaration of an identifier. -/
structure Obj where
  kind : ObjKind
  decl : ObjDecl
  deriving DecidableEq, Repr

/-- Expressions, as far as the linter inspects them.
`ident` carries the identifier's resolved `Obj` (`none` = Go's nil `Obj`);
`funcLit` carries `Type.Params.List`, each field as its list of names. -/
inductive Expr where
  | ident (name : String) (obj : Option Obj)
  | selector (x : Expr) (selName : String)
  | funcLit (params : List (List String))
  | otherExpr
  deriving DecidableEq, Repr

/-- The `failers` map of the Go source: the six failure-reporting members
of `*testing.T`.  Note: the current Go source declares this map but never
consults it anywhere. -/
def failers (s : String) : Bool :=
  s == "Error" || s == "Errorf" || s == "Fail" || s == "FailNow" ||
    s == "Fatal" || s == "Fatalf"

/-- The shared tail of `inRetry`: `lit.Type.Params.List[0]` and
`param.Names[0]` are unchecked indexing operations, so an empty
parameter list or an anonymous parameter panics (`none`). -/
def checkFirstParam (params : List (List String)) : Option Bool :=
  match params[0]? with
  | none => none
  | some names =>
    match names[0]? with
    | none => none
    | some nm => some (nm == "r")

/-- Go `inRetry(ce *ast.CallExpr) bool`: is this call `retry.Run(t, <FUNC>)`
or `retry.RunWith(<FAILER>, t, <FUNC>)` whose function literal's first
parameter is named `r`?  `ce.Args[1]` / `ce.Args[2]` are unchecked, so a
recognized entry point with too few arguments panics (`none`). -/
def inRetry (fn : Expr) (args : List Expr) : Option Bool :=
  match fn with
  | Expr.selector x selName =>
    match x with
    | Expr.ident pkgName _ =>
      if pkgName == "retry" then
        match selName with
        | "Run" =>
          match args[1]? with
          | none => none
          | some a =>
            match a with
            | Expr.funcLit params => checkFirstParam params
            | _ => some false
        | "RunWith" =>
          match args[2]? with
          | none => none
          | some a =>
            match a with
            | Expr.funcLit params => checkFirstParam params
            | _ => some false
        | _ => some false
      else some false
    | _ => some false
  | _ => some false

/-- Go `objectIsTestingT(obj *ast.Object) bool`: the object's declaration is
an `*ast.Field` whose type is `*testing.T`. -/
def objectIsTestingT : Option Obj → Bool
  | none => false
  | some obj =>
    match obj.decl with
    | ObjDecl.field ty =>
      match ty with
      | TypeExpr.star inner =>
        match inner with
        | TypeExpr.sel x selName =>
          if selName == "T" then
            match x with
            | TypeExpr.tyIdent pkgName => pkgName == "testing"
            | _ => false
          else false
        | _ => false
      | _ => false
    | _ => false

/-- Go `usesTestingT(ce *ast.CallExpr) bool`: the callee selects a member off
an identifier resolving to `*testing.T`, or some argument is an identifier
of kind `Var` resolving to `*testing.T`. -/
def usesTestingT (fn : Expr) (args : List Expr) : Bool :=
  (match fn with
   | Expr.selector x _ =>
     match x with
     | Expr.ident _ obj => objectIsTestingT obj
     | _ => false
   | _ => false)
  ||
  args.any (fun a =>
    match a with
    | Expr.ident _ obj =>
      match obj with
      | none => false
      | some o => o.kind == ObjKind.var && objectIsTestingT (some o)
    | _ => false)

/-- A violation record passed to `rememberTest`: (path, test, pos). -/
abbrev VRec := String × String × Pos

/-- The inner map `map[string][]token.Pos` of the `broken` store, as an
association list (Go map iteration order is abstracted away; the report
sorts keys). -/
abbrev TestMap := List (String × List Pos)

/-- The global `broken` store: `map[string]map[string][]token.Pos`. -/
abbrev Store := List (String × TestMap)

/-- The Go-map update pattern shared by both levels of `rememberTest`:
if key `k` is present, rewrite its value through `g`, otherwise append a
fresh entry `(k, g d)` where `d` is the zero value for the map's value
type (`nil` slice / freshly made inner map). -/
def upsert {β : Type} (m : List (String × β)) (k : String) (g : β → β)
    (d : β) : List (String × β) :=
  if m.any (fun kv => kv.1 == k) then
    m.map (fun kv => if kv.1 == k then (kv.1, g kv.2) else kv)
  else m ++ [(k, g d)]

/-- Go map read `m[k]` with zero value `d` for a missing key. -/
def lookupD {β : Type} (m : List (String × β)) (k : String) (d : β) : β :=
  ((m.find? (fun kv => kv.1 == k)).map Prod.snd).getD d

/-- Go `testList[test] = append(testList[test], pos)`: append `pos` to the
test's slice (`nil` when the key is absent). -/
def appendPos (m : TestMap) (test : String) (pos : Pos) : TestMap :=
  upsert m test (fun ps => ps ++ [pos]) []

/-- Go `rememberTest(path, test string, pos token.Pos)`: get-or-create the
file's test map, then append `pos` to the test's position slice. -/
def rememberTest (broken : Store) (path test : String) (pos : Pos) : Store :=
  upsert broken path (fun tm => appendPos tm test pos) []

/-- The file keys of the store (in backing order, before sorting). -/
def fileKeys (s : Store) : List String := s.map Prod.fst

/-- The positions recorded for `(path, test)`: `broken[path][test]`. -/
def posListOf (s : Store) (path test : String) : List Pos :=
  lookupD (lookupD s path []) test []

/-- Fold a batch of violation records into the store, in order. -/
def insertAll (broken : Store) (rs : List VRec) : Store :=
  rs.foldl (fun b r => rememberTest b r.1 r.2.1 r.2.2) broken

/-- The `visitor` struct: its zero value (`visitor{path: path}`) has
`depth = 0`, `currentTest = ""`, `retryDepth = 0`. -/
structure Visitor where
  depth : Nat
  currentTest : String
  path : String
  retryDepth : Nat
  deriving DecidableEq, Repr

/-- The node payload the visitor dispatches on: `*ast.CallExpr` (callee,
arguments, position), `*ast.FuncDecl` (name), or any other node kind. -/
inductive NodeKind where
  | callExpr (fn : Expr) (args : List Expr) (pos : Pos)
  | funcDecl (name : String)
  | otherNode
  deriving DecidableEq, Repr

/-- A syntax-tree node as walked by `ast.Walk`: its payload and the child
subtrees walked after `Visit` returns (for a call, these are the callee,
the arguments, and — inside a function-literal argument — its body). -/
inductive Node where
  | mk (kind : NodeKind) (children : List Node)

/-- Go `(v visitor) Visit(n ast.Node)` on a non-nil node: increment `depth`;
for a call, snapshot `retrying := v.retryDepth > 0` *before* `inRetry`
re-anchors `retryDepth`, and emit a record iff `retrying && usesTestingT`;
for a function declaration, set `currentTest`.  `none` models the panic
that `inRetry` can raise.  (`Visit(nil)` returns `v` unchanged and is
omitted.)  Returns the visitor value handed to the children together with
the records passed to `rememberTest` at this node. -/
def visit (v : Visitor) (k : NodeKind) : Option (Visitor × List VRec) :=
  match k with
  | NodeKind.callExpr fn args pos =>
    let v1 : Visitor := { v with depth := v.depth + 1 }
    let retrying : Bool := decide (v1.retryDepth > 0)
    match inRetry fn args with
    | none => none
    | some isRetry =>
      let v2 : Visitor :=
        if isRetry then { v1 with retryDepth := v1.depth } else v1
      let recs : List VRec :=
        if retrying && usesTestingT fn args then
          [(v2.path, v2.currentTest, pos)]
        else []
      some (v2, recs)
  | NodeKind.funcDecl name =>
    some ({ v with depth := v.depth + 1, currentTest := name }, [])
  | NodeKind.otherNode =>
    some ({ v with depth := v.depth + 1 }, [])

mutual
/-- Go `ast.Walk(v, n)` threading the global `broken` store: visit the node,
record its violations, then walk each child with the *returned visitor
value* (Go passes the visitor by value, so siblings and the parent never
see a child's state). -/
def walkNode (v : Visitor) (broken : Store) : Node → Option Store
  | Node.mk k cs =>
    match visit v k with
    | none => none
    | some (w, recs) => walkList w (insertAll broken recs) cs

/-- Walk a list of sibling subtrees, each with the same visitor value `v`,
threading the store left to right. -/
def walkList (v : Visitor) (broken : Store) : List Node → Option Store
  | [] => some broken
  | c :: cs =>
    match walkNode v broken c with
    | none => none
    | some b => walkList v b cs
end

mutual
/-- The flat list of violation records emitted while walking a subtree:
the store-free counterpart of `walkNode`. -/
def walkRecs (v : Visitor) : Node → Option (List VRec)
  | Node.mk k cs =>
    match visit v k with
    | none => none
    | some (w, recs) =>
      match walkRecsList w cs with
      | none => none
      | some rs => some (recs ++ rs)

/-- Records emitted while walking sibling subtrees, each with the same
visitor value `v`. -/
def walkRecsList (v : Visitor) : List Node → Option (List VRec)
  | [] => some []
  | c :: cs =>
    match walkRecs v c with
    | none => none
    | some rs =>
      match walkRecsList v cs with
      | none => none
      | some rs2 => some (rs ++ rs2)
end

/-- Go `visitFile` on an eligible file starts the walk at the file's tree with
`visitor{path: path}`. -/
def walkFile (path : String) (broken : Store) (tree : Node) : Option Store :=
  walkNode { depth := 0, currentTest := "", path := path, retryDepth := 0 }
    broken tree

/-- Go `keys[V any](m map[string]V) []string`: collect the map's keys and
`sort.Strings` them (lexicographic order).  The report iterates files and,
within a file, test names in this order. -/
def keys {β : Type} (m : List (String × β)) : List String :=
  List.insertionSort (fun a b : String => a ≤ b) (m.map Prod.fst)

/-- The outcomes of the two fallible operations `run` performs before
inspecting `broken`: `os.Getwd` and `filepath.Walk` (`some msg` = the
operation returned an error). -/
structure RunEnv where
  getwdErr : Option String
  walkErr : Option String
  broken : Store
  deriving DecidableEq, Repr

/-- Go `run() (int, error)`: error from `os.Getwd` or `filepath.Walk` is
returned as an error (with exit code 0 alongside); otherwise the exit code
is 1 when `broken` is non-empty and 0 when it is empty. -/
def run (env : RunEnv) : Nat × Option String :=
  match env.getwdErr with
  | some e => (0, some ("failed to get cwd: " ++ e))
  | none =>
    match env.walkErr with
    | some e => (0, some ("failed to walk directory: " ++ e))
    | none => if env.broken.length > 0 then (1, none) else (0, none)

/-- Go `main()`: `os.Exit(1)` when `run` returned an error, otherwise
`os.Exit(exitCode)`. -/
def mainExit (env : RunEnv) : Nat :=
  match run env with
  | (_, some _) => 1
  | (code, none) => code

/-! ### Concrete fixtures

Objects and expressions mirroring the repository's own test data
(`testdir/helper.go`, `testdir/helper_test.go`). -/

/-- The object of a parameter `t *testing.T`. -/
def tObj : Obj :=
  { kind := ObjKind.var,
    decl := ObjDecl.field
      (TypeExpr.star (TypeExpr.sel (TypeExpr.tyIdent "testing") "T")) }

/-- The object of a parameter `r *retry.R`. -/
def rObj : Obj :=
  { kind := ObjKind.var,
    decl := ObjDecl.field
      (TypeExpr.star (TypeExpr.sel (TypeExpr.tyIdent "retry") "R")) }

/-- The identifier `t` resolving to a `t *testing.T` parameter. -/
def tId : Expr := Expr.ident "t" (some tObj)

/-- The identifier `r` resolving to an `r *retry.R` parameter. -/
def rId : Expr := Expr.ident "r" (some rObj)

/-- The callee `retry.Run` (the package identifier has no object). -/
def retryRunFn : Expr := Expr.selector (Expr.ident "retry" none) "Run"

/-! ### Store lemmas -/

/-- Updating the values of the entries whose key matches `k` commutes with
looking up the first entry matching `k`. -/
theorem find?_map_update {β : Type} (m : List (String × β)) (k : String)
    (g : β → β) :
    (m.map (fun kv => if kv.1 == k then (kv.1, g kv.2) else kv)).find?
        (fun kv => kv.1 == k)
      = (m.find? (fun kv => kv.1 == k)).map
          (fun kv => (kv.1, g kv.2)) := by
  induction m with
  | nil => rfl
  | cons kv m ih =>
    by_cases h : kv.1 = k
    · simp [List.find?_cons, h]
    · simp only [List.map_cons, List.find?_cons]
      have hb : (kv.1 == k) = false := by simpa using h
      simp only [hb, if_false, hb, ih]
      simp [hb]

/-- Reading back the upserted key yields the updated value. -/
theorem lookupD_upsert {β : Type} (m : List (String × β)) (k : String)
    (g : β → β) (d : β) :
    lookupD (upsert m k g d) k d = g (lookupD m k d) := by
  unfold upsert lookupD
  cases hany : m.any (fun kv => kv.1 == k) with
  | false =>
    have hnone : m.find? (fun kv => kv.1 == k) = none := by
      rw [List.find?_eq_none]
      intro x hx
      have := (List.any_eq_false.mp hany) x hx
      simpa using this
    simp [List.find?_append, hnone]
  | true =>
    rw [if_pos rfl, find?_map_update]
    have hsome : (m.find? (fun kv => kv.1 == k)).isSome := by
      rw [List.find?_isSome]
      obtain ⟨x, hx, hpx⟩ := List.any_eq_true.mp hany
      exact ⟨x, hx, hpx⟩
    obtain ⟨kv₀, hkv₀⟩ := Option.isSome_iff_exists.mp hsome
    rw [hkv₀]
    rfl

/-- Upserting preserves the key list when the key is present and appends
the key otherwise. -/
theorem map_fst_upsert {β : Type} (m : List (String × β)) (k : String)
    (g : β → β) (d : β) :
    (upsert m k g d).map Prod.fst =
      if m.any (fun kv => kv.1 == k) then m.map Prod.fst
      else m.map Prod.fst ++ [k] := by
  unfold upsert
  cases hany : m.any (fun kv => kv.1 == k) with
  | false => simp
  | true =>
    have hfst : ∀ kv : String × β,
        Prod.fst (if kv.1 == k then (kv.1, g kv.2) else kv) = kv.1 := by
      intro kv
      rw [apply_ite Prod.fst]
      simp
    rw [if_pos rfl, List.map_map]
    exact List.map_congr_left (fun kv _ => hfst kv)

/-! ### Traversal lemmas -/

/-- Folding a concatenated batch of records equals folding the batches in
sequence. -/
theorem insertAll_append (broken : Store) (rs₁ rs₂ : List VRec) :
    insertAll broken (rs₁ ++ rs₂) = insertAll (insertAll broken rs₁) rs₂ := by
  unfold insertAll
  exact List.foldl_append _ _ _ _

mutual
/-- The store-threading walk factors through the pure record batch: the
final store is the initial store with the subtree's records folded in,
and the batch depends only on the incoming visitor value and the
subtree. -/
theorem walkNode_factor : ∀ (n : Node) (v : Visitor) (broken : Store),
    walkNode v broken n = (walkRecs v n).map (fun rs => insertAll broken rs)
  | Node.mk k cs, v, broken => by
    cases hv : visit v k with
    | none => simp [walkNode, walkRecs, hv]
    | some p =>
      obtain ⟨w, recs⟩ := p
      have hl := walkList_factor cs w (insertAll broken recs)
      cases hr : walkRecsList w cs with
      | none => simp [walkNode, walkRecs, hv, hr, hl]
      | some rs =>
        simp [walkNode, walkRecs, hv, hr, hl, insertAll_append]

/-- List version of `walkNode_factor`: sibling subtrees are all walked
with the same visitor value `v`. -/
theorem walkList_factor : ∀ (cs : List Node) (v : Visitor) (broken : Store),
    walkList v broken cs
      = (walkRecsList v cs).map (fun rs => insertAll broken rs)
  | [], v, broken => by simp [walkList, walkRecsList, insertAll]
  | c :: cs, v, broken => by
    have hn := walkNode_factor c v broken
    cases hc : walkRecs v c with
    | none => simp [walkList, walkRecsList, hc, hn]
    | some rs =>
      have hl := walkList_factor cs v (insertAll broken rs)
      cases hr : walkRecsList v cs with
      | none => simp [walkList, walkRecsList, hc, hr, hn, hl]
      | some rs₂ =>
        simp [walkList, walkRecsList, hc, hr, hn, hl, insertAll_append]
end

/-- Record batches of sibling blocks concatenate: the records of a later
sibling block are computed with the same visitor value, independently of
the earlier siblings' subtrees. -/
theorem walkRecsList_append (v : Visitor) (cs₁ cs₂ : List Node) :
    walkRecsList v (cs₁ ++ cs₂)
      = (walkRecsList v cs₁).bind
          (fun r₁ => (walkRecsList v cs₂).map (fun r₂ => r₁ ++ r₂)) := by
  induction cs₁ with
  | nil =>
    cases h : walkRecsList v cs₂ with
    | none => simp [walkRecsList, h]
    | some rs => simp [walkRecsList, h]
  | cons c cs ih =>
    cases hc : walkRecs v c with
    | none => simp [walkRecsList, hc]
    | some rs =>
      cases hr : walkRecsList v cs with
      | none =>
        rw [List.cons_append]
        simp [walkRecsList, hc, ih, hr]
      | some rs₂ =>
        rw [List.cons_append]
        cases h₂ : walkRecsList v cs₂ with
        | none => simp [walkRecsList, hc, ih, hr, h₂]
        | some rs₃ => simp [walkRecsList, hc, ih, hr, h₂]

/-! ### Fixture trees -/

/-- The call `t.Log(err)` (as in the repository fixture `okHelper`). -/
def logCallNode : Node :=
  Node.mk (NodeKind.callExpr (Expr.selector tId "Log")
    [Expr.ident "err" none] 7) []

/-- The call `retry.Run(t, func(r *retry.R) { t.Log(err) })`: the first
child stands for the argument `t`, the second for the function literal
whose body contains the `t.Log(err)` call. -/
def okHelperRetryNode : Node :=
  Node.mk (NodeKind.callExpr retryRunFn [tId, Expr.funcLit [["r"]]] 3)
    [Node.mk NodeKind.otherNode [], Node.mk NodeKind.otherNode [logCallNode]]

/-- The fixture function `okHelper` of `testdir/helper.go`, reduced to its
first retry block: `func okHelper(t *testing.T) { retry.Run(t, func(r
*retry.R) { t.Log(err) }) }`. -/
def okHelperTree : Node :=
  Node.mk (NodeKind.funcDecl "okHelper")
    [Node.mk NodeKind.otherNode [okHelperRetryNode]]

/-! ### Claim theorems -/

/-- **C1** (code bug): the claim says a violation is recorded for a direct
failure call only when the callee selects one of the six `failers` members
on a `*testing.T` identifier, so that `t.Log(err)` inside a retry scope
records no violation.  The code never consults `failers`: walking the
embedding of the repository's own `okHelper` fixture, whose retry body
contains only `t.Log(err)`, records a violation at that call (position 7)
even though `Log` is not one of the six failure members. -/
theorem c1_tLog_flagged_despite_not_failer :
    failers "Log" = false
    ∧ walkFile "testdir/helper.go" [] okHelperTree
        = some [("testdir/helper.go", [("okHelper", [7])])] :=
  ⟨rfl, rfl⟩

/-- **C2** counterexample: the claim says a function literal whose first
parameter has any name other than `t` opens a retry scope, but
`retry.Run(t, func(foo *retry.R) {...})` is not detected (`some false`),
while the same call with first parameter `r` is (`some true`). -/
theorem c2_counterexample_param_foo :
    ("foo" = "t" → False)
    ∧ inRetry retryRunFn [tId, Expr.funcLit [["foo"]]] = some false
    ∧ inRetry retryRunFn [tId, Expr.funcLit [["r"]]] = some true :=
  ⟨by decide, rfl, rfl⟩

/-- **C2** amended: retry-call detection succeeds iff the callee is
`retry.Run` (function literal at argument index 1) or `retry.RunWith`
(index 2) and the literal's first declared parameter is named exactly
`r` — not "anything other than `t`"; moreover only such callees can ever
be detected. -/
theorem c2_inRetry_requires_param_named_r (pobj : Option Obj)
    (args : List Expr) (nm : String) (ns : List String)
    (ps : List (List String)) :
    (args[1]? = some (Expr.funcLit ((nm :: ns) :: ps)) →
      inRetry (Expr.selector (Expr.ident "retry" pobj) "Run") args
        = some (nm == "r"))
    ∧ (args[2]? = some (Expr.funcLit ((nm :: ns) :: ps)) →
      inRetry (Expr.selector (Expr.ident "retry" pobj) "RunWith") args
        = some (nm == "r"))
    ∧ (∀ fn args₂, inRetry fn args₂ = some true →
        ∃ o sel, fn = Expr.selector (Expr.ident "retry" o) sel
          ∧ (sel = "Run" ∨ sel = "RunWith")) := by
  refine ⟨?_, ?_, ?_⟩
  · intro h
    simp [inRetry, h, checkFirstParam]
  · intro h
    simp [inRetry, h, checkFirstParam]
  · intro fn args₂ h
    cases fn with
    | ident nm₂ o => simp [inRetry] at h
    | funcLit ps₂ => simp [inRetry] at h
    | otherExpr => simp [inRetry] at h
    | selector x sel =>
      cases x with
      | selector y sel₂ => simp [inRetry] at h
      | funcLit ps₂ => simp [inRetry] at h
      | otherExpr => simp [inRetry] at h
      | ident pname o =>
        by_cases hp : pname = "retry"
        · subst hp
          refine ⟨o, sel, rfl, ?_⟩
          unfold inRetry at h
          simp only [beq_self_eq_true, if_pos] at h
          split at h
          · left; rfl
          · right; rfl
          · exact absurd h (by simp)
        · exfalso
          have hb : (pname == "retry") = false := by simpa using hp
          simp [inRetry, hb] at h

/-- **C2** witness: instantiating the amended theorem at
`retry.Run(t, func(x *retry.R) {...})` and discharging its hypothesis
shows detection fails for first parameter `x`. -/
theorem c2_witness :
    ([tId, Expr.funcLit [["x"]]][1]? = some (Expr.funcLit [["x"]]))
    ∧ inRetry (Expr.selector (Expr.ident "retry" none) "Run")
        [tId, Expr.funcLit [["x"]]] = some ("x" == "r") :=
  ⟨rfl, (c2_inRetry_requires_param_named_r none
      [tId, Expr.funcLit [["x"]]] "x" [] []).1 rfl⟩

/-- **C6** counterexample: the claim says malformed call shapes are
treated as "not a match" and never cause a failure, but a recognized
entry-point call with too few arguments (`retry.Run(t)`) and one whose
function literal has an empty parameter list (`retry.Run(t, func() {})`)
both abort with an out-of-range index (modelled by `none`). -/
theorem c6_counterexample_short_args :
    inRetry retryRunFn [tId] = none
    ∧ inRetry retryRunFn [tId, Expr.funcLit []] = none :=
  ⟨rfl, rfl⟩

/-- **C6** amended: shape mismatches — a callee that is not a selector
over the package identifier `retry`, an unrecognized member, or a
designated argument that exists but is not a function literal — are
safely treated as "no match"; but a recognized entry point whose
argument list is too short to contain the designated index, or whose
function literal has an empty parameter list or an anonymous first
parameter, aborts (index out of range) instead of being treated as "no
match". -/
theorem c6_inRetry_partial_robustness :
    (∀ (name : String) (o : Option Obj) (sel : String) (args : List Expr),
        name ≠ "retry" →
        inRetry (Expr.selector (Expr.ident name o) sel) args = some false)
    ∧ (∀ (o : Option Obj) (sel : String) (args : List Expr),
        sel ≠ "Run" → sel ≠ "RunWith" →
        inRetry (Expr.selector (Expr.ident "retry" o) sel) args
          = some false)
    ∧ (∀ (o : Option Obj) (args : List Expr) (a : Expr),
        args[1]? = some a → (∀ ps, a ≠ Expr.funcLit ps) →
        inRetry (Expr.selector (Expr.ident "retry" o) "Run") args
          = some false)
    ∧ inRetry (Expr.selector (Expr.ident "retry" none) "Run")
        [Expr.funcLit [["r"]]] = none
    ∧ inRetry retryRunFn [tId, Expr.funcLit [[]]] = none := by
  refine ⟨?_, ?_, ?_, rfl, rfl⟩
  · intro name o sel args hname
    have hb : (name == "retry") = false := by simpa using hname
    simp [inRetry, hb]
  · intro o sel args h₁ h₂
    unfold inRetry
    simp only [beq_self_eq_true, if_pos]
  · intro o args a hget hnl
    unfold inRetry
    simp only [beq_self_eq_true, if_pos, hget]

/-- **C6** witness: instantiating the amended theorem shows that calling
`require.New(t)` (package `require`, not `retry`) is a safe "no match",
and that the two abort cases are concrete. -/
theorem c6_witness :
    ("require" ≠ "retry")
    ∧ inRetry (Expr.selector (Expr.ident "require" none) "New") [tId]
        = some false :=
  ⟨by decide, (c6_inRetry_partial_robustness).1 "require" none "New" [tId]
    (by decide)⟩

/-- An argument that is an identifier of kind `Var` resolving to a
`*testing.T` parameter (the condition of `usesTestingT`'s argument
loop). -/
def isTestingTVarArg (a : Expr) : Bool :=
  match a with
  | Expr.ident _ (some o) => o.kind == ObjKind.var && objectIsTestingT (some o)
  | _ => false

/-- An argument satisfying the loop condition makes `usesTestingT` true,
whatever the callee is. -/
theorem usesTestingT_of_arg (fn : Expr) (args : List Expr) (a : Expr)
    (ha : a ∈ args) (hT : isTestingTVarArg a = true) :
    usesTestingT fn args = true := by
  unfold usesTestingT
  rw [Bool.or_eq_true]
  right
  rw [List.any_eq_true]
  refine ⟨a, ha, ?_⟩
  cases a with
  | ident n obj =>
    cases obj with
    | none => exact absurd hT (by simp [isTestingTVarArg])
    | some o => simpa [isTestingTVarArg] using hT
  | selector x s => exact absurd hT (by simp [isTestingTVarArg])
  | funcLit ps => exact absurd hT (by simp [isTestingTVarArg])
  | otherExpr => exact absurd hT (by simp [isTestingTVarArg])

/-- The zero-value visitor `visitor{}`. -/
def v0 : Visitor := { depth := 0, currentTest := "", path := "", retryDepth := 0 }

/-- A visitor state inside a retry scope within function `TestX`. -/
def vRetry : Visitor :=
  { depth := 5, currentTest := "TestX", path := "x_test.go", retryDepth := 2 }

/-- **C4**: a call that is itself the retry invocation is evaluated with
the outer (pre-retry) scope state: `retrying` is snapshotted before
`inRetry` re-anchors `retryDepth`, so when the visitor is not already
inside a retry scope (`retryDepth = 0`), visiting the call records no
violation — even when `usesTestingT` holds, e.g. because `t` is among its
arguments — while the returned visitor, used for everything inside the
function-literal argument, carries `retryDepth = depth + 1 > 0` whenever
the call was detected as a retry invocation. -/
theorem c4_retry_call_outer_scope (v : Visitor) (fn : Expr)
    (args : List Expr) (pos : Pos) (b : Bool)
    (h0 : v.retryDepth = 0) (h1 : inRetry fn args = some b) :
    visit v (NodeKind.callExpr fn args pos)
      = some ((if b then
          { v with depth := v.depth + 1, retryDepth := v.depth + 1 }
          else { v with depth := v.depth + 1 }), []) := by
  cases b with
  | false => simp [visit, h1, h0]
  | true => simp [visit, h1, h0]

/-- **C4** witness: visiting `retry.Run(t, func(r *retry.R) {...})` from
the zero visitor uses `t` (`usesTestingT` is true) yet records nothing,
and hands its children a visitor with `retryDepth = 1`. -/
theorem c4_witness :
    (v0.retryDepth = 0)
    ∧ inRetry retryRunFn [tId, Expr.funcLit [["r"]]] = some true
    ∧ usesTestingT retryRunFn [tId, Expr.funcLit [["r"]]] = true
    ∧ visit v0 (NodeKind.callExpr retryRunFn [tId, Expr.funcLit [["r"]]] 3)
        = some ({ v0 with depth := 1, retryDepth := 1 }, []) := by
  refine ⟨rfl, rfl, rfl, ?_⟩
  have h := c4_retry_call_outer_scope v0 retryRunFn
    [tId, Expr.funcLit [["r"]]] 3 true rfl rfl
  simpa [v0] using h

/-- **C10**: inside a retry scope, any call expression with an argument —
at any position — that is an identifier of kind `Var` resolving to a
`*testing.T` parameter records a violation at the current function,
regardless of what function is being called. -/
theorem c10_testingT_arg_flagged (v : Visitor) (fn : Expr)
    (args : List Expr) (pos : Pos) (b : Bool) (a : Expr)
    (h0 : 0 < v.retryDepth) (h1 : inRetry fn args = some b)
    (ha : a ∈ args) (hT : isTestingTVarArg a = true) :
    ∃ w, visit v (NodeKind.callExpr fn args pos)
      = some (w, [(v.path, v.currentTest, pos)]) := by
  have hu : usesTestingT fn args = true := usesTestingT_of_arg fn args a ha hT
  refine ⟨(if b then
      { v with depth := v.depth + 1, retryDepth := v.depth + 1 }
      else { v with depth := v.depth + 1 }), ?_⟩
  cases b with
  | false => simp [visit, h1, hu, h0]
  | true => simp [visit, h1, hu, h0]

/-- **C10** witness: inside a retry scope, `helper(t)` — a plain function
call, not a method or an assertion — is flagged because its (only)
argument resolves to `*testing.T`. -/
theorem c10_witness :
    (0 < vRetry.retryDepth)
    ∧ inRetry (Expr.ident "helper" none) [tId] = some false
    ∧ tId ∈ [tId]
    ∧ isTestingTVarArg tId = true
    ∧ ∃ w, visit vRetry (NodeKind.callExpr (Expr.ident "helper" none) [tId] 9)
        = some (w, [("x_test.go", "TestX", 9)]) :=
  ⟨by decide, rfl, List.mem_singleton.mpr rfl, rfl,
    c10_testingT_arg_flagged vRetry (Expr.ident "helper" none) [tId] 9 false
      tId (by decide) rfl (List.mem_singleton.mpr rfl) rfl⟩

/-- **C3**: scope state is passed by value.  Visiting a parent node hands
every child subtree the same visitor value `w` returned by `visit` at the
parent: the final store is the incoming store plus a record batch that is
a function of `(w, children)` alone, and the batch of a later sibling
block is computed with the very same `w` no matter what the earlier
siblings' subtrees did — so after a nested retry body's subtree finishes,
a sibling is still evaluated with the enclosing scope's exact
`retryDepth`, never a stale deeper value. -/
theorem c3_scope_state_by_value (v : Visitor) (k : NodeKind) (cs : List Node)
    (w : Visitor) (recs : List VRec) (h : visit v k = some (w, recs)) :
    (∀ broken, walkNode v broken (Node.mk k cs)
        = (walkRecsList w cs).map (fun rs => insertAll broken (recs ++ rs)))
    ∧ (∀ cs₁ cs₂, walkRecsList w (cs₁ ++ cs₂)
        = (walkRecsList w cs₁).bind
            (fun r₁ => (walkRecsList w cs₂).map (fun r₂ => r₁ ++ r₂))) := by
  constructor
  · intro broken
    have h₁ : walkNode v broken (Node.mk k cs)
        = walkList w (insertAll broken recs) cs := by
      simp [walkNode, h]
    rw [h₁, walkList_factor]
    cases hr : walkRecsList w cs <;> simp [insertAll_append]
  · intro cs₁ cs₂
    exact walkRecsList_append w cs₁ cs₂

/-- The visitor value handed to the children of `Node.mk (funcDecl
"TestA") _` when starting from the zero visitor. -/
def w0 : Visitor := { depth := 1, currentTest := "TestA", path := "", retryDepth := 0 }

/-- **C3** witness: instantiating the by-value theorem at a concrete
function declaration node. -/
theorem c3_witness :
    (visit v0 (NodeKind.funcDecl "TestA") = some (w0, []))
    ∧ ((∀ broken, walkNode v0 broken
          (Node.mk (NodeKind.funcDecl "TestA") [Node.mk NodeKind.otherNode []])
        = (walkRecsList w0 [Node.mk NodeKind.otherNode []]).map
            (fun rs => insertAll broken ([] ++ rs)))
      ∧ (∀ cs₁ cs₂, walkRecsList w0 (cs₁ ++ cs₂)
        = (walkRecsList w0 cs₁).bind
            (fun r₁ => (walkRecsList w0 cs₂).map (fun r₂ => r₁ ++ r₂)))) :=
  ⟨rfl, c3_scope_state_by_value v0 (NodeKind.funcDecl "TestA")
    [Node.mk NodeKind.otherNode []] w0 [] rfl⟩

/-- The object of the local variable introduced by
`require := require.New(t)` (declared by an assignment, not a field). -/
def reqVarObj : Obj := { kind := ObjKind.var, decl := ObjDecl.otherDecl }

/-- The call `require.New(t)` (package-level `require`, no object). -/
def requireNewNode : Node :=
  Node.mk (NodeKind.callExpr (Expr.selector (Expr.ident "require" none) "New")
    [tId] 2) [Node.mk NodeKind.otherNode []]

/-- The call `require.NotNil(err)` on the helper value bound to the outer
handle. -/
def requireNotNilNode : Node :=
  Node.mk (NodeKind.callExpr
    (Expr.selector (Expr.ident "require" (some reqVarObj)) "NotNil")
    [Expr.ident "err" none] 9) []

/-- The call `retry.Run(t, func(r *retry.R) { require.NotNil(err) })`. -/
def superBrokenRetryNode : Node :=
  Node.mk (NodeKind.callExpr retryRunFn [tId, Expr.funcLit [["r"]]] 5)
    [Node.mk NodeKind.otherNode [],
     Node.mk NodeKind.otherNode [requireNotNilNode]]

/-- The README's first "Bad" example (and the fixture
`TestAPI_SuperBroken`): `require := require.New(t)` before a retry body
that invokes the helper without the retry-scoped handle. -/
def superBrokenTree : Node :=
  Node.mk (NodeKind.funcDecl "TestAPI_SuperBroken")
    [Node.mk NodeKind.otherNode [requireNewNode, superBrokenRetryNode]]

/-- **C5** (code bug): the claim — and the repository's README, which
lists this exact pattern as one to catch — says constructing an assertion
helper bound to the outer handle (`require := require.New(t)`) before a
retry body and invoking it inside the retry body without the retry-scoped
handle records a violation.  The current visitor carries no
assertion-helper state at all: walking the embedding of the fixture
`TestAPI_SuperBroken` records no violation whatsoever. -/
theorem c5_require_new_not_flagged :
    walkFile "testdir/helper_test.go" [] superBrokenTree = some [] := rfl

/-- **C7** counterexample: the claim says insertion is idempotent per
(file, function, position), but recording the same site twice leaves two
copies of the position in the store, not one. -/
theorem c7_counterexample_double_insert :
    rememberTest (rememberTest [] "api_test.go" "TestA" 5)
        "api_test.go" "TestA" 5
      = [("api_test.go", [("TestA", [5, 5])])]
    ∧ posListOf (rememberTest (rememberTest [] "api_test.go" "TestA" 5)
        "api_test.go" "TestA" 5) "api_test.go" "TestA" ≠ [5] :=
  ⟨rfl, by decide⟩

/-- **C7** amended: deduplication happens only at the map-key levels —
re-recording an existing (file, function) adds no new file or function
entry — while the position slice is appended to unconditionally, so the
same (file, function, position) recorded twice stores the position
twice. -/
theorem c7_rememberTest_key_dedup_pos_append (s : Store)
    (path test : String) (pos : Pos) :
    posListOf (rememberTest s path test pos) path test
        = posListOf s path test ++ [pos]
    ∧ fileKeys (rememberTest s path test pos)
        = (if s.any (fun kv => kv.1 == path) then fileKeys s
           else fileKeys s ++ [path])
    ∧ (lookupD (rememberTest s path test pos) path []).map Prod.fst
        = (if (lookupD s path []).any (fun kv => kv.1 == test)
           then (lookupD s path []).map Prod.fst
           else (lookupD s path []).map Prod.fst ++ [test]) := by
  refine ⟨?_, ?_, ?_⟩
  · unfold posListOf rememberTest
    rw [lookupD_upsert]
    unfold appendPos
    rw [lookupD_upsert]
  · unfold fileKeys rememberTest
    exact map_fst_upsert s path (fun tm => appendPos tm test pos) []
  · unfold rememberTest
    rw [lookupD_upsert]
    unfold appendPos
    exact map_fst_upsert (lookupD s path []) test (fun ps => ps ++ [pos]) []

/-- **C8** counterexample: the claim says the operational-error exit
status is distinct from the violations-found status, but both are 1: a
failing `os.Getwd` and a run that found violations exit identically. -/
theorem c8_counterexample_same_exit_code :
    mainExit (RunEnv.mk (some "permission denied") none []) = 1
    ∧ mainExit (RunEnv.mk none none
        [("api_test.go", [("TestA", [5])])]) = 1 :=
  ⟨rfl, rfl⟩

/-- **C8** amended: the exit status is 0 exactly when both operations
succeed and no violation was recorded, and 1 in every other case — the
violations-found status and the operational-error status coincide. -/
theorem c8_exit_codes (env : RunEnv) :
    (mainExit env = 0 ∨ mainExit env = 1)
    ∧ (mainExit env = 0 ↔
        env.getwdErr = none ∧ env.walkErr = none ∧ env.broken = []) := by
  obtain ⟨g, w, b⟩ := env
  cases g with
  | some e => simp [mainExit, run]
  | none =>
    cases w with
    | some e => simp [mainExit, run]
    | none =>
      cases b with
      | nil => simp [mainExit, run]
      | cons kv rest => simp [mainExit, run]

/-- **C9**: the report's enumeration (`keys`) is lexicographically sorted
at both levels — file paths and, within a file, function names — lists
exactly the stored keys, and is invariant under the backing store's
insertion/iteration order (any permutation of the key list yields the
same sorted enumeration). -/
theorem c9_report_sorted (s : Store) (tm : TestMap) :
    (keys s).Sorted (fun a b : String => a ≤ b)
    ∧ (keys s).Perm (fileKeys s)
    ∧ (keys tm).Sorted (fun a b : String => a ≤ b)
    ∧ (keys tm).Perm (tm.map Prod.fst)
    ∧ ∀ s₂ : Store, (fileKeys s).Perm (fileKeys s₂) → keys s = keys s₂ := by
  refine ⟨?_, ?_, ?_, ?_, ?_⟩
  · exact List.sorted_insertionSort _ _
  · exact List.perm_insertionSort _ _
  · exact List.sorted_insertionSort _ _
  · exact List.perm_insertionSort _ _
  · intro s₂ hperm
    unfold fileKeys at hperm
    unfold keys
    exact List.eq_of_perm_of_sorted
      (((List.perm_insertionSort _ _).trans hperm).trans
        (List.perm_insertionSort _ _).symm)
      (List.sorted_insertionSort _ _) (List.sorted_insertionSort _ _)

/-- A store whose backing order is unsorted. -/
def demoStore : Store :=
  [("b_test.go", [("TestB", [2])]), ("a_test.go", [("TestA", [1])])]

/-- The same store contents in the opposite backing order. -/
def demoStore₂ : Store :=
  [("a_test.go", [("TestA", [1])]), ("b_test.go", [("TestB", [2])])]

/-- An inner test map whose backing order is unsorted. -/
def demoTm : TestMap := [("TestY", [4]), ("TestX", [3])]

/-- **C9** witness: concrete stores in two backing orders produce the
same sorted enumeration. -/
theorem c9_witness :
    ((fileKeys demoStore).Perm (fileKeys demoStore₂))
    ∧ (keys demoStore).Sorted (fun a b : String => a ≤ b)
    ∧ (keys demoStore).Perm (fileKeys demoStore)
    ∧ (keys demoTm).Sorted (fun a b : String => a ≤ b)
    ∧ (keys demoTm).Perm (demoTm.map Prod.fst)
    ∧ keys demoStore = keys demoStore₂ := by
  have hp : (fileKeys demoStore).Perm (fileKeys demoStore₂) :=
    List.Perm.swap "a_test.go" "b_test.go" []
  have h := c9_report_sorted demoStore demoTm
  exact ⟨hp, h.1, h.2.1, h.2.2.1, h.2.2.2.1, h.2.2.2.2 demoStore₂ hp⟩

end LintConsulRetry
